import Mathlib

/-
Shallow embedding of the task-manager core (src/main.py) and proofs of the
spec claims about it.

Modelling conventions:
- A Python `datetime` is a pair (proleptic ordinal of its date, microseconds
  since midnight), compared lexicographically; this matches the total order
  on naive datetimes.  `datetime.combine(d, datetime.min.time())` is the pair
  (d, 0) and `timedelta(days=1)` subtracts 1 from the ordinal.
- `datetime.isoformat` / `datetime.fromisoformat` are an exact bijection on
  the strings `isoformat` produces, so the JSON value stored for a due date
  is identified with the datetime it denotes (`none` for JSON null).
- The process-wide RNG and the `uids` registry are a `Gen` state: an infinite
  stream of 6-character draws plus the position of the next draw and the set
  of already-issued ids.  The unbounded retry loop of `create_id` is given
  explicit fuel and returns `none` when the fuel runs out.
- `Storage` holds the in-memory task list and the parsed contents of the
  persisted file; `sync`'s full-file rewrite sets the latter.  Mutators take
  the current time `now` explicitly (the source reads `datetime.now()`).
- A raised Python exception is modelled by the operation returning the error
  (second component / `raised` field) instead of mutating state.
-/

set_option autoImplicit false

namespace TaskManager

/-- A naive Python `datetime`: proleptic-Gregorian ordinal of the date part
and microseconds elapsed since midnight, ordered lexicographically. -/
structure DateTime where
  day : Int
  micros : Nat
  deriving DecidableEq, Repr

/-- Lexicographic `<=` on datetimes (Python `datetime.__le__`). -/
def DateTime.ble (a b : DateTime) : Bool :=
  decide (a.day < b.day) || (decide (a.day = b.day) && decide (a.micros ≤ b.micros))

/-- Lexicographic `<` on datetimes (Python `datetime.__lt__`). -/
def DateTime.blt (a b : DateTime) : Bool :=
  decide (a.day < b.day) || (decide (a.day = b.day) && decide (a.micros < b.micros))

/-- Model of `datetime.combine(datetime.now().date() - timedelta(days=1), datetime.min.time())`:
start of day of (today minus one day). -/
def due_date_threshold (now : DateTime) : DateTime :=
  ⟨now.day - 1, 0⟩

/-- A task record: the five fields set by `Task.__init__`. -/
structure Task where
  task_id : String
  name : String
  description : String
  completed : Bool
  due_date : Option DateTime
  deriving DecidableEq, Repr

/-- The JSON mapping produced by `Task.todict`: keys `id`, `name`,
`description`, `completed`, `due_date` (ISO string or null, identified with
the datetime it denotes). -/
structure TaskDict where
  id : String
  name : String
  description : String
  completed : Bool
  due_date : Option DateTime
  deriving DecidableEq, Repr

/-- Model of `Task.todict`: serialize a task to its JSON mapping.  A datetime is always
truthy in Python, so `self.due_date.isoformat() if self.due_date else None`
is the `Option`-map of the ISO codec. -/
def Task.todict (t : Task) : TaskDict :=
  { id := t.task_id
    name := t.name
    description := t.description
    completed := t.completed
    due_date := t.due_date }

/-- The RNG and the process-wide `uids` registry: `draws n` is the n-th
6-character candidate `random.choices` will produce, `pos` the index of the
next draw, `uids` the set of already-issued ids. -/
structure Gen where
  uids : List String
  draws : Nat → String
  pos : Nat

/-- Model of `create_id`: draw candidates until one is not in `uids`, insert it and
return it.  The unbounded `while True` loop carries explicit fuel; `none`
means the fuel ran out (the Python loop would still be running). -/
def create_id : Nat → Gen → Option (String × Gen)
  | 0, _ => none
  | fuel + 1, g =>
    if g.draws g.pos ∈ g.uids then
      create_id fuel ⟨g.uids, g.draws, g.pos + 1⟩
    else
      some (g.draws g.pos, ⟨g.draws g.pos :: g.uids, g.draws, g.pos + 1⟩)

/-- Model of `Task.__init__`: `self.task_id = task_id or create_id()` — a falsy
`task_id` (Python `None` or the empty string) triggers generation, a truthy
(non-empty) one is used verbatim and never touches the registry.
`completed` starts `False`. -/
def Task.init (name description : String) (due_date : Option DateTime)
    (task_id : Option String) (fuel : Nat) (g : Gen) : Option (Task × Gen) :=
  match task_id with
  | some tid =>
    if tid = "" then
      (create_id fuel g).map fun p =>
        ({ task_id := p.1, name := name, description := description,
           completed := false, due_date := due_date }, p.2)
    else
      some ({ task_id := tid, name := name, description := description,
              completed := false, due_date := due_date }, g)
  | none =>
    (create_id fuel g).map fun p =>
      ({ task_id := p.1, name := name, description := description,
         completed := false, due_date := due_date }, p.2)

/-- Model of `Task.fromdict`: build the task through `Task.__init__` with the stored
id, then overwrite `completed` with the stored flag.
`datetime.fromisoformat(dict["due_date"]) if dict["due_date"] else None` is
the identity on the identified codec. -/
def Task.fromdict (d : TaskDict) (fuel : Nat) (g : Gen) : Option (Task × Gen) :=
  (Task.init d.name d.description d.due_date (some d.id) fuel g).map fun p =>
    ({ p.1 with completed := d.completed }, p.2)

/-- The storage state: the in-memory task list and the parsed contents of the
persisted JSON file. -/
structure Storage where
  tasks : List Task
  file : List TaskDict
  deriving DecidableEq, Repr

/-- The keep-predicate of `delete_over_due`:
`not task.due_date or task.due_date >= due_date_threshold`. -/
def overdueKeep (now : DateTime) (t : Task) : Bool :=
  match t.due_date with
  | none => true
  | some d => DateTime.ble (due_date_threshold now) d

/-- Model of `Storage.delete_over_due`: drop every task whose due date is strictly
before start-of-day of (today minus one day). -/
def Storage.delete_over_due (now : DateTime) (s : Storage) : Storage :=
  { s with tasks := s.tasks.filter (overdueKeep now) }

/-- Model of `Storage.sync`: purge overdue tasks, then rewrite the whole file with the
serialized current list. -/
def Storage.sync (now : DateTime) (s : Storage) : Storage :=
  let s' := Storage.delete_over_due now s
  { s' with file := s'.tasks.map Task.todict }

/-- Model of `Storage.add_task`: append, sync, return the task's id. -/
def Storage.add_task (now : DateTime) (s : Storage) (t : Task) : Storage × String :=
  (Storage.sync now { s with tasks := s.tasks ++ [t] }, t.task_id)

/-- Model of `Storage.remove_task`: filter out the matching id (no error if absent),
then sync. -/
def Storage.remove_task (now : DateTime) (s : Storage) (task_id : String) : Storage :=
  Storage.sync now { s with tasks := s.tasks.filter fun t => t.task_id ≠ task_id }

/-- Model of `Storage.find_task`: linear scan for the first task with the given id. -/
def Storage.find_task (s : Storage) (task_id : String) : Option Task :=
  s.tasks.find? fun t => t.task_id == task_id

/-- The message of the `RuntimeError` raised on a missing id. -/
def notFoundMsg (task_id : String) : String :=
  "Task with id " ++ task_id ++ " was not found"

/-- In-place mutation of the task object returned by `find_task`: update the
first task with the given id, leave everything else untouched. -/
def setTask (f : Task → Task) (task_id : String) : List Task → List Task
  | [] => []
  | t :: ts =>
    if t.task_id = task_id then f t :: ts else t :: setTask f task_id ts

/-- Model of `Storage.complete`: find the task; set `completed = True` and sync, or
raise `RuntimeError` (second component) leaving the state untouched. -/
def Storage.complete (now : DateTime) (s : Storage) (task_id : String) :
    Storage × Option String :=
  match Storage.find_task s task_id with
  | some _ =>
    (Storage.sync now
      { s with tasks := setTask (fun t => { t with completed := true }) task_id s.tasks },
     none)
  | none => (s, some (notFoundMsg task_id))

/-- Model of `Storage.uncomplete`: find the task; set `completed = False` and sync, or
raise `RuntimeError` leaving the state untouched. -/
def Storage.uncomplete (now : DateTime) (s : Storage) (task_id : String) :
    Storage × Option String :=
  match Storage.find_task s task_id with
  | some _ =>
    (Storage.sync now
      { s with tasks := setTask (fun t => { t with completed := false }) task_id s.tasks },
     none)
  | none => (s, some (notFoundMsg task_id))

/-- Model of `Storage.add_due_date`: find the task; set `due_date` and sync, or raise
`RuntimeError` leaving the state untouched. -/
def Storage.add_due_date (now : DateTime) (s : Storage) (task_id : String)
    (due_date : Option DateTime) : Storage × Option String :=
  match Storage.find_task s task_id with
  | some _ =>
    (Storage.sync now
      { s with tasks := setTask (fun t => { t with due_date := due_date }) task_id s.tasks },
     none)
  | none => (s, some (notFoundMsg task_id))

/-- What `load_tasks` finds in the file: either a parse/read failure (class
name of the Python exception) or a parsed JSON array of task mappings. -/
inductive FileContent where
  | invalid (errClass : String)
  | ok (db : List TaskDict)
  deriving Repr

/-- Outcome of a call to `load_tasks`: the task list afterwards, the generator
state, the messages printed to the terminal, and the exception propagated to
the caller (`none` when the call returns normally). -/
structure LoadResult where
  tasks : List Task
  gen : Gen
  printed : List String
  raised : Option String

/-- The red message `load_tasks` prints for each exception class. -/
def loadErrMsg (errClass : String) : String :=
  if errClass = "FileNotFoundError" then
    "Error: The tasks file does not exist."
  else if errClass = "JSONDecodeError" then
    "Error: The tasks file is not properly formatted."
  else
    "Unexpected error occurred: " ++ errClass

/-- Deserialize the parsed array in file order, threading the generator. -/
def fromdictAll (fuel : Nat) (g : Gen) : List TaskDict → Option (List Task × Gen)
  | [] => some ([], g)
  | d :: ds =>
    match Task.fromdict d fuel g with
    | none => none
    | some (t, g') => (fromdictAll fuel g' ds).map fun p => (t :: p.1, p.2)

/-- Model of `Storage.load_tasks`: append each deserialized task to the list; the
`try/except` catches every read/parse failure, prints a message matched on
the exception class, and returns normally — nothing is re-raised. -/
def Storage.load_tasks (fuel : Nat) (tasks : List Task) (content : FileContent)
    (g : Gen) : Option LoadResult :=
  match content with
  | .invalid errClass => some ⟨tasks, g, [loadErrMsg errClass], none⟩
  | .ok db =>
    (fromdictAll fuel g db).map fun p => ⟨tasks ++ p.1, p.2, [], none⟩

/-- A sequence of `k` ids issued by the generator, as performed by `k`
successive `Add` calls each constructing a `Task` without an explicit id. -/
def issueIds : Nat → Nat → Gen → Option (List String × Gen)
  | 0, _, g => some ([], g)
  | k + 1, fuel, g =>
    match create_id fuel g with
    | none => none
    | some (uid, g') => (issueIds k fuel g').map fun p => (uid :: p.1, p.2)

/-- The completion percentage computed by the `list` command:
`0.0` when there are no tasks, else `completed / total * 100`. -/
def completion_percentage (tasks : List Task) : ℚ :=
  let completed := (tasks.filter fun t => t.completed).length
  let total := tasks.length
  if total = 0 then 0 else ((completed : ℚ) / (total : ℚ)) * 100

/-! Helper lemmas -/

theorem DateTime.blt_eq_false_of_ble (a b : DateTime) (h : DateTime.ble a b = true) :
    DateTime.blt b a = false := by
  simp only [DateTime.ble, Bool.or_eq_true, Bool.and_eq_true, decide_eq_true_eq] at h
  cases hb : DateTime.blt b a
  · rfl
  · exfalso
    simp only [DateTime.blt, Bool.or_eq_true, Bool.and_eq_true, decide_eq_true_eq] at hb
    rcases h with h | ⟨h1, h2⟩ <;> rcases hb with hb | ⟨hb1, hb2⟩ <;> omega

theorem mem_sync_tasks (now : DateTime) (s : Storage) (t : Task) :
    t ∈ (Storage.sync now s).tasks ↔ t ∈ s.tasks ∧ overdueKeep now t = true := by
  simp [Storage.sync, Storage.delete_over_due, List.mem_filter]

theorem overdueKeep_no_overdue (now : DateTime) (t : Task) (d : DateTime)
    (hk : overdueKeep now t = true) (hd : t.due_date = some d) :
    DateTime.blt d (due_date_threshold now) = false := by
  unfold overdueKeep at hk
  rw [hd] at hk
  exact DateTime.blt_eq_false_of_ble _ _ hk

theorem noOverdue_sync (now : DateTime) (s : Storage) :
    ∀ t ∈ (Storage.sync now s).tasks, ∀ d, t.due_date = some d →
      DateTime.blt d (due_date_threshold now) = false := by
  intro t ht d hd
  exact overdueKeep_no_overdue now t d ((mem_sync_tasks now s t).mp ht).2 hd

theorem create_id_spec : ∀ (fuel : Nat) (g : Gen) (uid : String) (g' : Gen),
    create_id fuel g = some (uid, g') →
    uid ∉ g.uids ∧ g'.uids = uid :: g.uids ∧ g'.draws = g.draws := by
  intro fuel
  induction fuel with
  | zero =>
    intro g uid g' h
    exact absurd h (by simp [create_id])
  | succ n ih =>
    intro g uid g' h
    unfold create_id at h
    by_cases hc : g.draws g.pos ∈ g.uids
    · rw [if_pos hc] at h
      exact ih ⟨g.uids, g.draws, g.pos + 1⟩ uid g' h
    · rw [if_neg hc] at h
      simp only [Option.some_inj, Prod.mk.injEq] at h
      obtain ⟨rfl, rfl⟩ := h
      exact ⟨hc, rfl, rfl⟩

/-! Concrete values used by the witnesses -/

def now0 : DateTime := ⟨100, 0⟩

def overdueTask : Task := ⟨"ovrdue", "old", "old task", false, some ⟨50, 0⟩⟩

def keepTask : Task := ⟨"keepme", "new", "no due date", false, none⟩

def s0 : Storage := ⟨[overdueTask, keepTask], []⟩

/-! Claim theorems -/

/-- C1: after any `sync` — and hence after every mutating operation
(`add_task`, `remove_task`, `complete`, `uncomplete`, `add_due_date`, each of
which ends in a `sync` when it succeeds) — no task in the in-memory
collection has a non-null due date strictly earlier than start-of-day of
(today minus one day), and every task with a null due date survives the
purge. -/
theorem sync_purge_law (now : DateTime) (s : Storage) (u : Task) (i : String)
    (dd : Option DateTime) :
    (∀ t ∈ (Storage.sync now s).tasks, ∀ d, t.due_date = some d →
      DateTime.blt d (due_date_threshold now) = false)
  ∧ (∀ t ∈ s.tasks, t.due_date = none → t ∈ (Storage.sync now s).tasks)
  ∧ (∀ t ∈ (Storage.add_task now s u).1.tasks, ∀ d, t.due_date = some d →
      DateTime.blt d (due_date_threshold now) = false)
  ∧ (∀ t ∈ (Storage.remove_task now s i).tasks, ∀ d, t.due_date = some d →
      DateTime.blt d (due_date_threshold now) = false)
  ∧ ((Storage.complete now s i).2 = none →
      ∀ t ∈ (Storage.complete now s i).1.tasks, ∀ d, t.due_date = some d →
        DateTime.blt d (due_date_threshold now) = false)
  ∧ ((Storage.uncomplete now s i).2 = none →
      ∀ t ∈ (Storage.uncomplete now s i).1.tasks, ∀ d, t.due_date = some d →
        DateTime.blt d (due_date_threshold now) = false)
  ∧ ((Storage.add_due_date now s i dd).2 = none →
      ∀ t ∈ (Storage.add_due_date now s i dd).1.tasks, ∀ d, t.due_date = some d →
        DateTime.blt d (due_date_threshold now) = false) := by
  refine ⟨noOverdue_sync now s, ?_, noOverdue_sync now _, noOverdue_sync now _, ?_, ?_, ?_⟩
  · intro t ht hd
    refine (mem_sync_tasks now s t).mpr ⟨ht, ?_⟩
    unfold overdueKeep
    rw [hd]
  · unfold Storage.complete
    cases hf : Storage.find_task s i
    · intro h; exact absurd h (by simp)
    · intro _; exact noOverdue_sync now _
  · unfold Storage.uncomplete
    cases hf : Storage.find_task s i
    · intro h; exact absurd h (by simp)
    · intro _; exact noOverdue_sync now _
  · unfold Storage.add_due_date
    cases hf : Storage.find_task s i
    · intro h; exact absurd h (by simp)
    · intro _; exact noOverdue_sync now _

/-- Witness for C1: on a concrete state holding an overdue task and a task
with no due date, the null-due-date task survives the purge performed by
`sync`. -/
theorem sync_purge_law_witness : keepTask ∈ (Storage.sync now0 s0).tasks :=
  (sync_purge_law now0 s0 keepTask "zz" none).2.1 keepTask (by decide) rfl

/-- C2: `complete`, `uncomplete` and `add_due_date` on an id absent from the
collection raise the not-found `RuntimeError` and return the state exactly as
it was: in-memory tasks and persisted file untouched, no sync performed. -/
theorem notFound_error_law (now : DateTime) (s : Storage) (i : String)
    (dd : Option DateTime) (h : Storage.find_task s i = none) :
    Storage.complete now s i = (s, some (notFoundMsg i))
  ∧ Storage.uncomplete now s i = (s, some (notFoundMsg i))
  ∧ Storage.add_due_date now s i dd = (s, some (notFoundMsg i)) := by
  unfold Storage.complete Storage.uncomplete Storage.add_due_date
  simp [h]

/-- Witness for C2 at a concrete state and a concrete missing id. -/
theorem notFound_error_law_witness :
    Storage.complete now0 s0 "zz" = (s0, some (notFoundMsg "zz"))
  ∧ Storage.uncomplete now0 s0 "zz" = (s0, some (notFoundMsg "zz"))
  ∧ Storage.add_due_date now0 s0 "zz" none = (s0, some (notFoundMsg "zz")) :=
  notFound_error_law now0 s0 "zz" none (by decide)

/-- C8: the completion percentage handed to the renderer is
`completed / total * 100` and is `0` for an empty collection — the division
is never reached when `total = 0`, so no division error can occur. -/
theorem completion_percentage_law (tasks : List Task) :
    (tasks.length = 0 → completion_percentage tasks = 0)
  ∧ (tasks.length ≠ 0 →
      completion_percentage tasks =
        (((tasks.filter fun t => t.completed).length : ℚ) / (tasks.length : ℚ)) * 100) := by
  constructor <;> intro h <;> simp [completion_percentage, h]

/-- Witness for C8: the empty collection reports 0, a singleton collection
reports the quotient formula. -/
theorem completion_percentage_law_witness :
    completion_percentage [] = 0
  ∧ completion_percentage [keepTask] =
      ((([keepTask].filter fun t => t.completed).length : ℚ) /
        (([keepTask] : List Task).length : ℚ)) * 100 :=
  ⟨(completion_percentage_law []).1 rfl,
   (completion_percentage_law [keepTask]).2 (by decide)⟩

def gw : Gen :=
  ⟨["aaaaaa"], fun n => if n = 0 then "aaaaaa" else if n = 1 then "cccccc" else "bbbbbb", 0⟩

def gwFinal : Gen := ⟨["bbbbbb", "cccccc", "aaaaaa"], gw.draws, 3⟩

/-- C4: the ids issued by a sequence of `Add` calls (each id produced by
`create_id` for a `Task` constructed without an explicit id) are pairwise
distinct and distinct from every id previously present in the process-wide
registry, even when draws collide and the generator retries; every issued id
is recorded in the registry. -/
theorem add_ids_unique : ∀ (k fuel : Nat) (g : Gen) (ids : List String) (g' : Gen),
    issueIds k fuel g = some (ids, g') →
    ids.Nodup ∧ (∀ u ∈ ids, u ∉ g.uids) ∧ g'.uids = ids.reverse ++ g.uids := by
  intro k
  induction k with
  | zero =>
    intro fuel g ids g' h
    simp only [issueIds, Option.some_inj, Prod.mk.injEq] at h
    obtain ⟨rfl, rfl⟩ := h
    simp
  | succ n ih =>
    intro fuel g ids g' h
    unfold issueIds at h
    cases hc : create_id fuel g with
    | none => rw [hc] at h; exact absurd h (by simp)
    | some p =>
      obtain ⟨uid, g1⟩ := p
      rw [hc] at h
      have h2 : Option.map (fun p => (uid :: p.1, p.2)) (issueIds n fuel g1) =
          some (ids, g') := h
      cases hr : issueIds n fuel g1 with
      | none => rw [hr] at h2; exact absurd h2 (by simp)
      | some q =>
        obtain ⟨rest, g2⟩ := q
        rw [hr] at h2
        simp only [Option.map_some', Option.some_inj, Prod.mk.injEq] at h2
        obtain ⟨rfl, rfl⟩ := h2
        obtain ⟨hfresh, huids, _⟩ := create_id_spec fuel g uid g1 hc
        obtain ⟨hnd, hfr, heq⟩ := ih fuel g1 rest g2 hr
        refine ⟨?_, ?_, ?_⟩
        · refine List.nodup_cons.mpr ⟨?_, hnd⟩
          intro hmem
          have hnotin := hfr uid hmem
          rw [huids] at hnotin
          exact hnotin (List.mem_cons_self _ _)
        · intro u hu
          rcases List.mem_cons.mp hu with rfl | hu'
          · exact hfresh
          · intro hmem
            have hnotin := hfr u hu'
            rw [huids] at hnotin
            exact hnotin (List.mem_cons_of_mem _ hmem)
        · rw [heq, huids]
          simp

/-- Witness for C4: two ids issued against a registry already holding
"aaaaaa", where the generator's first draw collides with "aaaaaa" and must
retry. -/
theorem add_ids_unique_witness :
    (["cccccc", "bbbbbb"] : List String).Nodup
  ∧ "cccccc" ∉ gw.uids
  ∧ gwFinal.uids = (["cccccc", "bbbbbb"] : List String).reverse ++ gw.uids := by
  have h := add_ids_unique 2 3 gw ["cccccc", "bbbbbb"] gwFinal rfl
  exact ⟨h.1, h.2.1 "cccccc" (by decide), h.2.2⟩

/-- C5: serializing a `Task` with `todict` and deserializing the resulting
mapping with `fromdict` yields a task with identical `id`, `name`,
`description`, `completed` and `due_date`, and leaves the id registry
untouched.  Every task built by `Task.__init__` has a non-empty id (a falsy
id is replaced by a fresh 6-character one), which is the hypothesis. -/
theorem serialize_roundtrip (t : Task) (fuel : Nat) (g : Gen)
    (h : t.task_id ≠ "") :
    Task.fromdict (Task.todict t) fuel g = some (t, g) := by
  simp [Task.fromdict, Task.init, Task.todict, h]

/-- Witness for C5 at a concrete task with a non-empty id. -/
theorem serialize_roundtrip_witness :
    Task.fromdict (Task.todict keepTask) 1 gw = some (keepTask, gw) :=
  serialize_roundtrip keepTask 1 gw (by decide)

/-- C9: constructing a `Task` with an explicit empty-string id behaves
exactly as if no id had been supplied (the id is generated from the
registry); a non-empty explicit id is used verbatim with the generator state
— registry included — left completely untouched. -/
theorem explicit_id_law (name description : String) (dd : Option DateTime)
    (fuel : Nat) (g : Gen) (tid : String) (h : tid ≠ "") :
    Task.init name description dd (some "") fuel g = Task.init name description dd none fuel g
  ∧ Task.init name description dd (some tid) fuel g =
      some ({ task_id := tid, name := name, description := description,
              completed := false, due_date := dd }, g) := by
  constructor
  · simp [Task.init]
  · simp [Task.init, h]

/-- Witness for C9 at concrete field values and the explicit id "abc123". -/
theorem explicit_id_law_witness :
    Task.init "n" "d" none (some "") 1 gw = Task.init "n" "d" none none 1 gw
  ∧ Task.init "n" "d" none (some "abc123") 1 gw =
      some ({ task_id := "abc123", name := "n", description := "d",
              completed := false, due_date := none }, gw) :=
  explicit_id_law "n" "d" none 1 gw "abc123" (by decide)

/-! Further helper lemmas for the Storage operations -/

theorem find_task_some (s : Storage) (i : String) (t : Task)
    (h : Storage.find_task s i = some t) : t ∈ s.tasks ∧ t.task_id = i := by
  unfold Storage.find_task at h
  exact ⟨List.mem_of_find?_eq_some h, by simpa using List.find?_some h⟩

theorem setTask_eq_self (f : Task → Task) (i : String) :
    ∀ (l : List Task), (∀ t ∈ l, t.task_id = i → f t = t) → setTask f i l = l := by
  intro l
  induction l with
  | nil => intro _; rfl
  | cons t ts ih =>
    intro h
    unfold setTask
    by_cases hc : t.task_id = i
    · rw [if_pos hc, h t (List.mem_cons_self _ _) hc]
    · rw [if_neg hc, ih fun u hu hui => h u (List.mem_cons_of_mem _ hu) hui]

theorem map_id_of {α : Type} (f : α → α) :
    ∀ (l : List α), (∀ u ∈ l, f u = u) → l.map f = l := by
  intro l
  induction l with
  | nil => intro _; rfl
  | cons a as ih =>
    intro h
    rw [List.map_cons, h a (List.mem_cons_self _ _),
      ih fun u hu => h u (List.mem_cons_of_mem _ hu)]

theorem setTask_eq_map (f : Task → Task) (i : String) :
    ∀ (l : List Task), (l.map Task.task_id).Nodup →
    setTask f i l = l.map fun u => if u.task_id = i then f u else u := by
  intro l
  induction l with
  | nil => intro _; rfl
  | cons t ts ih =>
    intro hnd
    rw [List.map_cons, List.nodup_cons] at hnd
    by_cases hc : t.task_id = i
    · simp only [setTask, List.map_cons, if_pos hc]
      congr 1
      symm
      apply map_id_of
      intro u hu
      have : u.task_id ≠ i := by
        intro hui
        apply hnd.1
        have hm : u.task_id ∈ ts.map Task.task_id := List.mem_map_of_mem Task.task_id hu
        rw [hui, ← hc] at hm
        exact hm
      rw [if_neg this]
    · simp only [setTask, List.map_cons, if_neg hc]
      congr 1
      exact ih hnd.2

theorem sync_idem (now : DateTime) (s : Storage) :
    Storage.sync now (Storage.sync now s) = Storage.sync now s := by
  simp [Storage.sync, Storage.delete_over_due, List.filter_filter]

/-- C3 counterexample: on a file whose contents are not valid JSON (the
`json.JSONDecodeError` case), `load_tasks` returns normally — the propagated
exception slot is `none` — after printing the red message; it does not fail
with a storage error propagated to the caller. -/
theorem load_error_swallowed_cex :
    (Storage.load_tasks 1 [] (FileContent.invalid "JSONDecodeError") gw).map
      LoadResult.raised = some none
  ∧ (Storage.load_tasks 1 [] (FileContent.invalid "JSONDecodeError") gw).map
      LoadResult.printed = some ["Error: The tasks file is not properly formatted."] :=
  ⟨rfl, rfl⟩

/-- C3 (amended): for every unreadable-file or invalid-JSON failure,
`load_tasks` catches the exception itself: it prints one red message selected
by the exception class, leaves the task collection and the generator
untouched, and returns normally with no error propagated to the caller. -/
theorem load_error_swallowed (fuel : Nat) (tasks : List Task) (err : String)
    (g : Gen) :
    Storage.load_tasks fuel tasks (FileContent.invalid err) g =
      some ⟨tasks, g, [loadErrMsg err], none⟩ := rfl

/-- C6: `remove_task` filters the matching id out of the collection — a
no-op (and no error) when the id is absent — and then syncs; consequently a
task whose due date is strictly before the threshold is gone from both the
in-memory collection and the persisted file after removing any id. -/
theorem remove_task_law (now : DateTime) (s : Storage) (i : String) :
    (∀ t ∈ (Storage.remove_task now s i).tasks, t.task_id ≠ i)
  ∧ (Storage.find_task s i = none →
      Storage.remove_task now s i = Storage.sync now s)
  ∧ (∀ t ∈ s.tasks, ∀ d, t.due_date = some d →
      DateTime.blt d (due_date_threshold now) = true →
      t ∉ (Storage.remove_task now s i).tasks
      ∧ Task.todict t ∉ (Storage.remove_task now s i).file) := by
  refine ⟨?_, ?_, ?_⟩
  · intro t ht
    simp only [Storage.remove_task, Storage.sync, Storage.delete_over_due,
      List.mem_filter, decide_eq_true_eq] at ht
    exact ht.1.2
  · intro h
    have hf : (s.tasks.filter fun t => t.task_id ≠ i) = s.tasks := by
      apply List.filter_eq_self.mpr
      intro a ha
      have hne := List.find?_eq_none.mp h a ha
      simp only [beq_iff_eq] at hne
      simpa using hne
    unfold Storage.remove_task
    rw [hf]
  · intro t ht d hd hblt
    constructor
    · intro hmem
      simp only [Storage.remove_task, Storage.sync, Storage.delete_over_due,
        List.mem_filter] at hmem
      have := overdueKeep_no_overdue now t d hmem.2 hd
      rw [this] at hblt
      exact Bool.false_ne_true hblt
    · intro hmem
      simp only [Storage.remove_task, Storage.sync, Storage.delete_over_due,
        List.mem_map, List.mem_filter] at hmem
      obtain ⟨u, ⟨_, hk⟩, hdict⟩ := hmem
      have hdu : u.due_date = some d := by
        have := congrArg TaskDict.due_date hdict
        simp only [Task.todict] at this
        rw [this, hd]
      have := overdueKeep_no_overdue now u d hk hdu
      rw [this] at hblt
      exact Bool.false_ne_true hblt

/-- Witness for C6 at a concrete state: removing an unrelated id kicks the
overdue task out of both the in-memory list and the rewritten file. -/
theorem remove_task_law_witness :
    overdueTask ∉ (Storage.remove_task now0 s0 "zz").tasks
  ∧ Task.todict overdueTask ∉ (Storage.remove_task now0 s0 "zz").file :=
  (remove_task_law now0 s0 "zz").2.2 overdueTask (by decide) ⟨50, 0⟩ rfl (by decide)

/-- C7: `complete` on an id whose task is already completed does not raise,
any still-findable task under that id remains completed, and completing twice
produces exactly the state produced by completing once.  The id-uniqueness
invariant of the data model is assumed. -/
theorem complete_idempotent (now : DateTime) (s : Storage) (i : String) (t : Task)
    (hnd : (s.tasks.map Task.task_id).Nodup)
    (h : Storage.find_task s i = some t) (hc : t.completed = true) :
    (Storage.complete now s i).2 = none
  ∧ (∀ t', Storage.find_task (Storage.complete now s i).1 i = some t' →
      t'.completed = true)
  ∧ (Storage.complete now (Storage.complete now s i).1 i).1 =
      (Storage.complete now s i).1 := by
  obtain ⟨hmem, hid⟩ := find_task_some s i t h
  have hfix : ∀ u ∈ s.tasks, u.task_id = i →
      ({ u with completed := true } : Task) = u := by
    intro u hu hui
    have heq : u = t :=
      List.inj_on_of_nodup_map hnd hu hmem (by rw [hui, hid])
    rw [heq]
    cases t
    simp_all
  have hset : setTask (fun u => { u with completed := true }) i s.tasks = s.tasks :=
    setTask_eq_self _ _ _ hfix
  have hstate : Storage.complete now s i = (Storage.sync now s, none) := by
    unfold Storage.complete
    rw [h, hset]
  refine ⟨by rw [hstate], ?_, ?_⟩
  · intro t' ht'
    rw [hstate] at ht'
    obtain ⟨hm', hid'⟩ := find_task_some _ _ _ ht'
    have hm'' : t' ∈ s.tasks := ((mem_sync_tasks now s t').mp hm').1
    have heq : t' = t :=
      List.inj_on_of_nodup_map hnd hm'' hmem (by rw [hid', hid])
    rw [heq]
    exact hc
  · rw [hstate]
    show (Storage.complete now (Storage.sync now s) i).1 = Storage.sync now s
    cases h2 : Storage.find_task (Storage.sync now s) i with
    | none =>
      unfold Storage.complete
      rw [h2]
    | some t' =>
      obtain ⟨hm2, hid2⟩ := find_task_some _ _ _ h2
      have hm2' : t' ∈ s.tasks := ((mem_sync_tasks now s t').mp hm2).1
      have hset2 : setTask (fun u => { u with completed := true }) i
          (Storage.sync now s).tasks = (Storage.sync now s).tasks := by
        apply setTask_eq_self
        intro u hu hui
        exact hfix u ((mem_sync_tasks now s u).mp hu).1 hui
      unfold Storage.complete
      rw [h2, hset2]
      exact sync_idem now s

/-- Witness for C7 at a concrete state holding an already-completed task. -/
theorem complete_idempotent_witness :
    (Storage.complete now0 ⟨[⟨"done01", "n", "d", true, none⟩], []⟩ "done01").2 = none
  ∧ (Storage.complete now0
      (Storage.complete now0 ⟨[⟨"done01", "n", "d", true, none⟩], []⟩ "done01").1
      "done01").1 =
      (Storage.complete now0 ⟨[⟨"done01", "n", "d", true, none⟩], []⟩ "done01").1 := by
  have h := complete_idempotent now0 ⟨[⟨"done01", "n", "d", true, none⟩], []⟩
    "done01" ⟨"done01", "n", "d", true, none⟩ (by decide) (by decide) rfl
  exact ⟨h.1, h.2.2⟩

/-- C10: `complete` (resp. `uncomplete`) rewrites the collection to the
original list with only the matched task's `completed` field set, filtered by
the overdue purge — so every other surviving task keeps all five fields and
the relative order is preserved; in particular every unmatched task that the
purge keeps is still present unchanged.  The id-uniqueness invariant of the
data model is assumed. -/
theorem complete_frame_law (now : DateTime) (s : Storage) (i : String) (t : Task)
    (hnd : (s.tasks.map Task.task_id).Nodup)
    (h : Storage.find_task s i = some t) :
    (Storage.complete now s i).1.tasks =
      (s.tasks.map fun u => if u.task_id = i then { u with completed := true } else u).filter
        (overdueKeep now)
  ∧ (Storage.uncomplete now s i).1.tasks =
      (s.tasks.map fun u => if u.task_id = i then { u with completed := false } else u).filter
        (overdueKeep now)
  ∧ (∀ u ∈ s.tasks, u.task_id ≠ i → overdueKeep now u = true →
      u ∈ (Storage.complete now s i).1.tasks
      ∧ u ∈ (Storage.uncomplete now s i).1.tasks) := by
  have hmapc := setTask_eq_map (fun u => { u with completed := true }) i s.tasks hnd
  have hmapu := setTask_eq_map (fun u => { u with completed := false }) i s.tasks hnd
  have hcstate : (Storage.complete now s i).1.tasks =
      (s.tasks.map fun u => if u.task_id = i then { u with completed := true } else u).filter
        (overdueKeep now) := by
    unfold Storage.complete
    rw [h]
    show (Storage.sync now _).tasks = _
    rw [Storage.sync, Storage.delete_over_due]
    simp only []
    rw [hmapc]
  have hustate : (Storage.uncomplete now s i).1.tasks =
      (s.tasks.map fun u => if u.task_id = i then { u with completed := false } else u).filter
        (overdueKeep now) := by
    unfold Storage.uncomplete
    rw [h]
    show (Storage.sync now _).tasks = _
    rw [Storage.sync, Storage.delete_over_due]
    simp only []
    rw [hmapu]
  refine ⟨hcstate, hustate, ?_⟩
  intro u hu hui hk
  constructor
  · rw [hcstate]
    apply List.mem_filter.mpr
    refine ⟨?_, hk⟩
    have : (if u.task_id = i then ({ u with completed := true } : Task) else u) = u :=
      if_neg hui
    exact this ▸ List.mem_map_of_mem _ hu
  · rw [hustate]
    apply List.mem_filter.mpr
    refine ⟨?_, hk⟩
    have : (if u.task_id = i then ({ u with completed := false } : Task) else u) = u :=
      if_neg hui
    exact this ▸ List.mem_map_of_mem _ hu

/-- Witness for C10 at a concrete two-task state: completing one task leaves
the other, unmatched and not overdue, in the collection unchanged. -/
theorem complete_frame_law_witness :
    keepTask ∈ (Storage.complete now0 s0 "ovrdue").1.tasks
  ∧ keepTask ∈ (Storage.uncomplete now0 s0 "ovrdue").1.tasks :=
  (complete_frame_law now0 s0 "ovrdue" overdueTask (by decide) rfl).2.2
    keepTask (by decide) (by decide) rfl

end TaskManager
